import Mathlib

/-!
Verification of the log search/filter behaviour of `LogsComponent`
(src/frontend/src/app/logs/logs.component.ts) of the trailarr frontend.

JavaScript strings are modelled as `List Char`; `String.prototype.toLowerCase`
as a character-wise basic-latin lowercase map, `String.prototype.trim` as
dropping whitespace at both ends, and `String.prototype.includes` as
contiguous-substring containment.  The component's mutable fields become a
state record, and the `ngOnInit` subscription callback and `onSearch` become
state-transition functions.
-/

namespace Trailarr

/-- A JavaScript string, modelled as its list of characters. -/
abbrev JSStr := List Char

/-- `needle.leadMatch hay`: `hay` starts with `needle` (helper for `includes`). -/
def leadMatch : JSStr → JSStr → Bool
  | [], _ => true
  | _ :: _, [] => false
  | a :: as, b :: bs => a == b && leadMatch as bs

/-- `includes hay needle` models JS `hay.includes(needle)`:
`needle` occurs contiguously somewhere in `hay`. -/
def includes : JSStr → JSStr → Bool
  | [], needle => needle.isEmpty
  | hay@(_ :: t), needle => leadMatch needle hay || includes t needle

/-- Models JS `s.toLowerCase()` (basic latin folding, character-wise). -/
def toLowerCase (s : JSStr) : JSStr := s.map Char.toLower

/-- Models JS `s.trim()`: drop whitespace at both ends. -/
def jsTrim (s : JSStr) : JSStr :=
  ((s.dropWhile Char.isWhitespace).reverse.dropWhile Char.isWhitespace).reverse

/-- The `Logs` model (src/frontend/src/app/models/logs.ts is not shown; only
the `raw_log` field is used by `LogsComponent`). -/
structure Logs where
  raw_log : JSStr
deriving DecidableEq

/-- The mutable fields of `LogsComponent` that its methods read or write. -/
structure LogsState where
  title : JSStr
  isLoading : Bool
  all_logs : List Logs
  searchQuery : JSStr
  filtered_logs : List Logs
deriving DecidableEq

/-- The component's initial field values:
`title = 'Logs'; isLoading = true; all_logs = []; searchQuery = '';
filtered_logs = []`. -/
def initState : LogsState :=
  { title := ['L', 'o', 'g', 's']
  , isLoading := true
  , all_logs := []
  , searchQuery := []
  , filtered_logs := [] }

/-- The completion callback of the `getLogs()` subscription in `ngOnInit`:
`this.all_logs = logs; this.filtered_logs = logs; this.isLoading = false`. -/
def onLogsLoaded (s : LogsState) (logs : List Logs) : LogsState :=
  { s with all_logs := logs, filtered_logs := logs, isLoading := false }

/-- The recomputation of the filtered list performed by the final branch of
`onSearch`: keep every log whose lowercased `raw_log` contains the lowercased
query. -/
def filterLogs (allLogs : List Logs) (q : JSStr) : List Logs :=
  allLogs.filter (fun log => includes (toLowerCase log.raw_log) (toLowerCase q))

/-- `LogsComponent.onSearch(query)`:
if `query.length < 3`, set `filtered_logs` to `all_logs` and return;
if `query.trim() === this.searchQuery`, return (no change);
otherwise store `this.searchQuery = query` and set `filtered_logs` to the
logs whose lowercased `raw_log` contains the lowercased stored query. -/
def onSearch (s : LogsState) (query : JSStr) : LogsState :=
  if query.length < 3 then
    { s with filtered_logs := s.all_logs }
  else if jsTrim query = s.searchQuery then
    s
  else
    { s with searchQuery := query
           , filtered_logs := filterLogs s.all_logs query }

/-- Modelled from the spec: the always-recompute reference implementation of
§4.1 for claim C4 — it applies the short-query rule, and otherwise always
recomputes the filter from the full list and the current query, never
short-circuiting on the previously accepted query. -/
def refFilter (allLogs : List Logs) (q : JSStr) : List Logs :=
  if q.length < 3 then allLogs else filterLogs allLogs q

/-- The record `{raw_log: "INFO start"}` of the spec's example scenario. -/
def infoStart : Logs := ⟨['I','N','F','O',' ','s','t','a','r','t']⟩

/-- The record `{raw_log: "ERROR disk full"}` of the spec's example scenario. -/
def errorDisk : Logs := ⟨['E','R','R','O','R',' ','d','i','s','k',' ','f','u','l','l']⟩

/-- The record `{raw_log: "INFO stop"}` of the spec's example scenario. -/
def infoStop : Logs := ⟨['I','N','F','O',' ','s','t','o','p']⟩

end Trailarr

namespace Trailarr

/-- Basic-latin lowercase folding is idempotent on characters. -/
lemma char_toLower_toLower (c : Char) : c.toLower.toLower = c.toLower := by
  by_cases h : c.toNat ≥ 65 ∧ c.toNat ≤ 90
  · have h1 : c.toLower = Char.ofNat (c.toNat + 32) := by
      unfold Char.toLower
      simp [h]
    rw [h1]
    obtain ⟨h65, h90⟩ := h
    rw [ge_iff_le] at h65
    generalize c.toNat = n at h65 h90
    interval_cases n <;> decide
  · have h1 : c.toLower = c := by
      unfold Char.toLower
      simp [h]
    rw [h1]
    exact h1

/-- Lowercase folding is idempotent on strings. -/
lemma toLowerCase_idem (q : JSStr) : toLowerCase (toLowerCase q) = toLowerCase q := by
  induction q with
  | nil => rfl
  | cons c t ih => simp [toLowerCase, char_toLower_toLower] at ih ⊢

/-- `onSearch` never changes `all_logs`. -/
lemma onSearch_all_logs (s : LogsState) (q : JSStr) :
    (onSearch s q).all_logs = s.all_logs := by
  unfold onSearch
  split_ifs <;> rfl

/-- `onSearch` never changes `isLoading`. -/
lemma onSearch_isLoading (s : LogsState) (q : JSStr) :
    (onSearch s q).isLoading = s.isLoading := by
  unfold onSearch
  split_ifs <;> rfl

/-- `onSearch` never changes `title`. -/
lemma onSearch_title (s : LogsState) (q : JSStr) :
    (onSearch s q).title = s.title := by
  unfold onSearch
  split_ifs <;> rfl

/-- After `onSearch`, `filtered_logs` is a sublist of `all_logs` provided it
was one before the call. -/
lemma onSearch_sublist (s : LogsState) (q : JSStr)
    (h : s.filtered_logs.Sublist s.all_logs) :
    (onSearch s q).filtered_logs.Sublist (onSearch s q).all_logs := by
  unfold onSearch
  split_ifs <;> simp [filterLogs, h, List.filter_sublist]

/-- `onSearch` keeps `searchQuery` empty or of length at least 3 provided it
was so before the call. -/
lemma onSearch_query_inv (s : LogsState) (q : JSStr)
    (h : s.searchQuery = [] ∨ 3 ≤ s.searchQuery.length) :
    (onSearch s q).searchQuery = [] ∨ 3 ≤ (onSearch s q).searchQuery.length := by
  unfold onSearch
  split_ifs with h1 h2
  · exact h
  · exact h
  · exact Or.inr (Nat.not_lt.mp h1)

/-- Iterating `onSearch` preserves the sublist relation between
`filtered_logs` and `all_logs`. -/
lemma foldl_onSearch_sublist (qs : List JSStr) (s : LogsState)
    (h : s.filtered_logs.Sublist s.all_logs) :
    (qs.foldl onSearch s).filtered_logs.Sublist (qs.foldl onSearch s).all_logs := by
  induction qs generalizing s with
  | nil => exact h
  | cons q t ih => exact ih _ (onSearch_sublist s q h)

/-- Iterating `onSearch` never changes `all_logs`. -/
lemma foldl_onSearch_all_logs (qs : List JSStr) (s : LogsState) :
    (qs.foldl onSearch s).all_logs = s.all_logs := by
  induction qs generalizing s with
  | nil => rfl
  | cons q t ih => rw [List.foldl_cons, ih, onSearch_all_logs]

/-- Iterating `onSearch` preserves the `searchQuery` length invariant. -/
lemma foldl_onSearch_query_inv (qs : List JSStr) (s : LogsState)
    (h : s.searchQuery = [] ∨ 3 ≤ s.searchQuery.length) :
    (qs.foldl onSearch s).searchQuery = []
      ∨ 3 ≤ (qs.foldl onSearch s).searchQuery.length := by
  induction qs generalizing s with
  | nil => exact h
  | cons q t ih => exact ih _ (onSearch_query_inv s q h)

/-- Claim C1, counterexample: the query `"ab "` has trimmed length 2 < 3, yet
`onSearch` (whose guard tests the untrimmed length, which is 3) recomputes the
filter and does not return the full `all_logs` list. -/
theorem claim_C1_counterexample :
    (jsTrim ['a','b',' ']).length < 3 ∧
    (onSearch (onLogsLoaded initState [⟨['x']⟩]) ['a','b',' ']).filtered_logs
      ≠ (onLogsLoaded initState [⟨['x']⟩]).all_logs := by
  decide

/-- Claim C1, amended: for every state and every query whose UNTRIMMED length
is less than 3 (including the empty string), `onSearch` sets `filtered_logs`
to the full `all_logs` list, with no filtering applied. -/
theorem claim_C1_short_query_passthrough (s : LogsState) (q : JSStr)
    (h : q.length < 3) :
    (onSearch s q).filtered_logs = s.all_logs := by
  simp [onSearch, h]

/-- Claim C1, witness for the amended theorem at the empty query. -/
theorem claim_C1_short_query_passthrough_witness :
    ([] : JSStr).length < 3 ∧
    (onSearch initState []).filtered_logs = initState.all_logs :=
  ⟨by decide, claim_C1_short_query_passthrough initState [] (by decide)⟩

/-- Claim C2: when the query passes the length threshold and its trimmed form
differs from the previously accepted query, `onSearch` retains exactly those
records whose lowercased `raw_log` contains the lowercased query as a
substring, in their original relative order (it is a `List.filter`). -/
theorem claim_C2_recompute (s : LogsState) (q : JSStr)
    (hlen : 3 ≤ q.length) (hne : jsTrim q ≠ s.searchQuery) :
    (onSearch s q).filtered_logs
      = s.all_logs.filter
          (fun log => includes (toLowerCase log.raw_log) (toLowerCase q)) := by
  have h1 : ¬ q.length < 3 := Nat.not_lt.mpr hlen
  simp [onSearch, h1, hne, filterLogs]

/-- Claim C2, witness: the spec's example scenario — on
`[{raw_log:"INFO start"}, {raw_log:"ERROR disk full"}, {raw_log:"INFO stop"}]`
the query `"error"` yields `[{raw_log:"ERROR disk full"}]`. -/
theorem claim_C2_recompute_witness :
    3 ≤ (['e','r','r','o','r'] : JSStr).length ∧
    jsTrim ['e','r','r','o','r']
      ≠ (onLogsLoaded initState [infoStart, errorDisk, infoStop]).searchQuery ∧
    (onSearch (onLogsLoaded initState [infoStart, errorDisk, infoStop])
        ['e','r','r','o','r']).filtered_logs = [errorDisk] := by
  refine ⟨by decide, by decide, ?_⟩
  rw [claim_C2_recompute _ _ (by decide) (by decide)]
  decide

/-- Claim C3: after the initial load completes with `logs` and any sequence of
`onSearch` calls follows, `filtered_logs` is a sublist (sub-sequence, order
preserved) of `all_logs`, and `all_logs` is still the loaded `logs`. -/
theorem claim_C3_filtered_sublist (s : LogsState) (logs : List Logs)
    (qs : List JSStr) :
    (qs.foldl onSearch (onLogsLoaded s logs)).filtered_logs.Sublist
      (qs.foldl onSearch (onLogsLoaded s logs)).all_logs ∧
    (qs.foldl onSearch (onLogsLoaded s logs)).all_logs = logs := by
  constructor
  · exact foldl_onSearch_sublist qs _ (List.Sublist.refl logs)
  · rw [foldl_onSearch_all_logs]
    rfl

/-- Claim C4, counterexample: the short-circuit is not a pure optimization.
After loading `[{raw_log:"xyz"}]` and the calls
`onSearch("abc"); onSearch("ab"); onSearch("abc")`, the middle short query
resets `filtered_logs` to the full list without clearing the stored query, so
the final call short-circuits and leaves the full list, while the
always-recompute reference yields the empty filter result for `"abc"`. -/
theorem claim_C4_counterexample :
    (List.foldl onSearch (onLogsLoaded initState [⟨['x','y','z']⟩])
        [['a','b','c'], ['a','b'], ['a','b','c']]).filtered_logs
      ≠ refFilter (onLogsLoaded initState [⟨['x','y','z']⟩]).all_logs
          ['a','b','c'] := by
  decide

/-- Claim C4, amended: every `onSearch` call that does not take the
short-circuit branch (i.e. the query is short, or its trimmed form differs
from the stored query) produces exactly the always-recompute reference result;
only short-circuiting calls can deviate from the reference. -/
theorem claim_C4_no_shortcircuit_refines (s : LogsState) (q : JSStr)
    (h : q.length < 3 ∨ jsTrim q ≠ s.searchQuery) :
    (onSearch s q).filtered_logs = refFilter s.all_logs q := by
  by_cases h1 : q.length < 3
  · simp [onSearch, refFilter, h1]
  · have h2 : jsTrim q ≠ s.searchQuery := h.resolve_left h1
    simp [onSearch, refFilter, h1, h2]

/-- Claim C4, witness for the amended theorem at a concrete recomputing call. -/
theorem claim_C4_no_shortcircuit_refines_witness :
    ((['a','b','c'] : JSStr).length < 3
        ∨ jsTrim ['a','b','c'] ≠ initState.searchQuery) ∧
    (onSearch initState ['a','b','c']).filtered_logs
      = refFilter initState.all_logs ['a','b','c'] :=
  ⟨Or.inr (by decide),
   claim_C4_no_shortcircuit_refines initState ['a','b','c'] (Or.inr (by decide))⟩

/-- Claim C5: calling `onSearch` twice in succession with the same query
yields the same `filtered_logs` after the second call as after the first. -/
theorem claim_C5_idempotent (s : LogsState) (q : JSStr) :
    (onSearch (onSearch s q) q).filtered_logs = (onSearch s q).filtered_logs := by
  by_cases h1 : q.length < 3
  · simp [onSearch, h1]
  · by_cases h2 : jsTrim q = s.searchQuery
    · simp [onSearch, h1, h2]
    · by_cases h3 : jsTrim q = q
      · have h2' : q ≠ s.searchQuery := by
          rw [← h3]
          exact h2
        simp [onSearch, h1, h2, h3, h2']
      · simp [onSearch, h1, h2, h3]

/-- Claim C6: matching is case-insensitive — lowercasing the query first does
not change the recomputed filter result — and the spec's two concrete
`"ErrorFoo"` examples hold; the only normalization is lowercase folding. -/
theorem claim_C6_case_insensitive :
    (∀ (logs : List Logs) (q : JSStr),
        filterLogs logs (toLowerCase q) = filterLogs logs q) ∧
    filterLogs [⟨['E','r','r','o','r','F','o','o']⟩] ['f','o','o']
      = [⟨['E','r','r','o','r','F','o','o']⟩] ∧
    filterLogs [⟨['E','r','r','o','r','F','o','o']⟩] ['F','O','O']
      = [⟨['E','r','r','o','r','F','o','o']⟩] := by
  refine ⟨fun logs q => ?_, by decide, by decide⟩
  unfold filterLogs
  rw [toLowerCase_idem]

/-- Claim C7: `onSearch` leaves `all_logs`, `isLoading` and `title` unchanged;
only `filtered_logs` and `searchQuery` may change. -/
theorem claim_C7_frame (s : LogsState) (q : JSStr) :
    (onSearch s q).all_logs = s.all_logs ∧
    (onSearch s q).isLoading = s.isLoading ∧
    (onSearch s q).title = s.title :=
  ⟨onSearch_all_logs s q, onSearch_isLoading s q, onSearch_title s q⟩

/-- Claim C8: the load-completion handler sets `all_logs` and `filtered_logs`
to the fetched list and clears `isLoading`, regardless of the prior state. -/
theorem claim_C8_load_completion (s : LogsState) (logs : List Logs) :
    (onLogsLoaded s logs).all_logs = logs ∧
    (onLogsLoaded s logs).filtered_logs = logs ∧
    (onLogsLoaded s logs).isLoading = false :=
  ⟨rfl, rfl, rfl⟩

/-- Claim C9: starting from the initial empty string, after any sequence of
`onSearch` calls `searchQuery` is empty or of untrimmed length at least 3, and
a call handled by the short-query branch never updates it. -/
theorem claim_C9_query_invariant :
    (∀ qs : List JSStr,
        (qs.foldl onSearch initState).searchQuery = []
          ∨ 3 ≤ (qs.foldl onSearch initState).searchQuery.length) ∧
    (∀ (s : LogsState) (q : JSStr), q.length < 3 →
        (onSearch s q).searchQuery = s.searchQuery) := by
  constructor
  · intro qs
    exact foldl_onSearch_query_inv qs initState (Or.inl rfl)
  · intro s q h
    simp [onSearch, h]

/-- Claim C9, witness for the short-query conjunct at a concrete call. -/
theorem claim_C9_query_invariant_witness :
    (['a','b'] : JSStr).length < 3 ∧
    (onSearch initState ['a','b']).searchQuery = initState.searchQuery :=
  ⟨by decide, claim_C9_query_invariant.2 initState ['a','b'] (by decide)⟩

/-- Claim C10: an accepted query is used exactly as entered (untrimmed) in the
substring test — on `all_logs = [{raw_log:"xabc"}]` the query `" abc"` yields
the recomputation with the untrimmed query, which is empty, while filtering
with the trimmed query `"abc"` would keep the record. -/
theorem claim_C10_whitespace_significant :
    (onSearch { initState with all_logs := [⟨['x','a','b','c']⟩] }
        [' ','a','b','c']).filtered_logs
      = filterLogs [⟨['x','a','b','c']⟩] [' ','a','b','c'] ∧
    (onSearch { initState with all_logs := [⟨['x','a','b','c']⟩] }
        [' ','a','b','c']).filtered_logs = [] ∧
    filterLogs [⟨['x','a','b','c']⟩] (jsTrim [' ','a','b','c'])
      = [⟨['x','a','b','c']⟩] := by
  decide

end Trailarr
